import Mathlib

/-!
Shallow embedding of the subscription lifecycle core of the `sea-c`
meal-subscription application: the pricing calculator, the
active/paused/cancelled state machine, the pause-record ledger and the
delivery-day store, translated from the route handlers in
`src/app/api/subscriptions/my-subscriptions/route.ts` (POST create, GET read)
and `src/app/api/subscriptions/[id]/route.ts` (PUT edit, DELETE cancel,
POST pause, DELETE resume).

Modelling conventions: currency amounts are exact rationals (the JS code uses
IEEE doubles; the formula and the tolerance-1 comparison are the same
expressions over ℚ); calendar dates are integers (day numbers), compared the
way the handlers compare `Date` values at day granularity; each handler is a
pure function from the subscription's state (its row, its pause records in
insertion order, its delivery-day rows) to `Except String` of the new state —
in the source every write happens only after all guards have passed, so an
`.error` result carries no state change.  Authentication, CSRF, rate limiting
and ownership lookups are outside the lifecycle core and are not modelled;
a handler here is invoked on the subscription row the source would have
fetched.
-/

namespace SeaC

/-- Lifecycle status of a subscription (`status` column). -/
inductive SubStatus where
  | active
  | paused
  | cancelled
deriving DecidableEq, Repr

/-- A row of `paused_subscriptions`: id, start date, optional end date
(`none` = open-ended pause). -/
structure PauseRecord where
  id : Nat
  start_date : Int
  end_date : Option Int
deriving DecidableEq, Repr

/-- The subscription row fields the lifecycle core reads and writes.
`allergies` / `meal_types_env` model the JSON envelope the source stores in
the legacy `allergies` text column; `meal_type` is the legacy single
meal-type column (first selected meal type). -/
structure Subscription where
  meal_plan_id : Int
  meal_type : Nat
  total_price : ℚ
  allergies : Option String
  meal_types_env : List Nat
  status : SubStatus
deriving DecidableEq, Repr

/-- State of one subscription: its row, its pause records in insertion order
(ids assigned from `nextPauseId`), and its delivery-day rows (weekday codes). -/
structure SubState where
  sub : Subscription
  pauses : List PauseRecord
  days : List Nat
  nextPauseId : Nat
deriving DecidableEq, Repr

/-- Meal-plan reference row: id and price per meal. -/
structure MealPlan where
  id : Int
  price_per_meal : ℚ
deriving DecidableEq, Repr

/-- The `MEAL_TYPE_MAP` constant from the route files. -/
def MEAL_TYPE_MAP : String → Option Nat
  | "breakfast" => some 0
  | "lunch" => some 1
  | "dinner" => some 2
  | _ => none

/-- The `DAY_OF_WEEK_MAP` constant from the route files. -/
def DAY_OF_WEEK_MAP : String → Option Nat
  | "sunday" => some 0
  | "monday" => some 1
  | "tuesday" => some 2
  | "wednesday" => some 3
  | "thursday" => some 4
  | "friday" => some 5
  | "saturday" => some 6
  | _ => none

/-- JS `String.prototype.toLowerCase` on the ASCII tokens the handlers
compare (a structurally recursive form of `String.toLower`, so concrete
tokens evaluate). -/
def jsToLower (s : String) : String := ⟨s.data.map Char.toLower⟩

/-- The `validMealTypes` array used by the validation loops. -/
def validMealTypes : List String := ["breakfast", "lunch", "dinner"]

/-- The `validDeliveryDays` array used by the validation loops. -/
def validDeliveryDays : List String :=
  ["sunday", "monday", "tuesday", "wednesday", "thursday", "friday", "saturday"]

/-- The constant `monthlyMultiplier = 4.3` (weeks per month). -/
def monthlyMultiplier : ℚ := 43 / 10

/-- The pricing calculator: `price_per_meal * mealTypes.length *
deliveryDays.length * monthlyMultiplier`, as computed inline by both the
create (POST) and edit (PUT) handlers. -/
def computePrice (planPricePerMeal : ℚ) (mealTypeCount deliveryDayCount : Nat) : ℚ :=
  planPricePerMeal * mealTypeCount * deliveryDayCount * monthlyMultiplier

/-- Map a list of tokens through a token map, failing on the first token the
map does not know — the behaviour of the `mealTypes.map`/`deliveryDays.map`
blocks in the handlers, which throw `Invalid meal type: x` /
`Invalid delivery day: x` on an unmapped token. -/
def mapTokens (f : String → Option Nat) (errPre : String) :
    List String → Except String (List Nat)
  | [] => .ok []
  | t :: ts =>
    match f t with
    | none => .error (errPre ++ t)
    | some n => (mapTokens f errPre ts).map (fun ns => n :: ns)

/-- Body of the PUT edit request (`UpdateSubscriptionRequest`), after the
source's sanitisation step: parsed plan id, token lists, optional allergies
note, client-submitted total price. -/
structure UpdateSubscriptionRequest where
  planId : Int
  mealTypes : List String
  deliveryDays : List String
  allergies : Option String
  totalPrice : ℚ
deriving Repr

/-- The PUT edit handler of `[id]/route.ts`, from the required-field check
onward; `mealPlan` is the result of the meal-plan lookup by
`body.planId`.  Guards in source order: required fields; meal-type tokens
valid (lower-cased membership in `validMealTypes`); delivery-day tokens valid;
meal-type mapping (raw token, not lower-cased, as in the source); plan
exists; price tolerance.  On success the subscription row is rewritten
(plan id, legacy first meal type, computed price, allergies envelope), the
delivery-day rows are deleted and the submitted days (lower-cased) inserted. -/
def PUT_update (s : SubState) (body : UpdateSubscriptionRequest)
    (mealPlan : Option MealPlan) : Except String SubState :=
  if body.planId ≤ 0 ∨ body.mealTypes.isEmpty ∨ body.deliveryDays.isEmpty then
    .error "Missing required fields"
  else
    match body.mealTypes.find? (fun mt => !(validMealTypes.contains (jsToLower mt))) with
    | some mt => .error ("Invalid meal type: " ++ mt)
    | none =>
    match body.deliveryDays.find? (fun d => !(validDeliveryDays.contains (jsToLower d))) with
    | some d => .error ("Invalid delivery day: " ++ d)
    | none =>
    match mapTokens MEAL_TYPE_MAP "Invalid meal type: " body.mealTypes with
    | .error e => .error e
    | .ok mealTypeNumbers =>
    match mealPlan with
    | none => .error "Invalid meal plan"
    | some plan =>
      if 1 < |body.totalPrice - computePrice plan.price_per_meal
          body.mealTypes.length body.deliveryDays.length| then
        .error "Price mismatch"
      else
        .ok { s with
          sub := { s.sub with
            meal_plan_id := body.planId
            meal_type := mealTypeNumbers.headD 0
            total_price := computePrice plan.price_per_meal
              body.mealTypes.length body.deliveryDays.length
            allergies := body.allergies
            meal_types_env := mealTypeNumbers }
          days := body.deliveryDays.filterMap (fun d => DAY_OF_WEEK_MAP (jsToLower d)) }

/-- Body of the POST create request (`SubscriptionRequest`), after
sanitisation: name, phone, parsed plan id, token lists, allergies, submitted
total price. -/
structure CreateSubscriptionRequest where
  name : String
  phone : String
  plan : Int
  mealTypes : List String
  deliveryDays : List String
  allergies : Option String
  totalPrice : ℚ
deriving Repr

/-- The POST create handler of `my-subscriptions/route.ts`, from the
required-field check onward; `mealPlan` is the plan lookup result.  Guards in
source order: required fields; token validity (lower-cased membership);
plan id positive; plan exists (`Invalid plan selected`); meal-type mapping
(raw tokens); price tolerance; then the subscription row is inserted with
status `active` and the delivery-day rows inserted (raw tokens, not
lower-cased, as in the source's create loop). -/
def POST_create (body : CreateSubscriptionRequest)
    (mealPlan : Option MealPlan) : Except String SubState :=
  if body.name = "" ∨ body.phone = "" ∨ body.mealTypes.isEmpty ∨ body.deliveryDays.isEmpty then
    .error "Missing required fields"
  else
    match body.mealTypes.find? (fun mt => !(validMealTypes.contains (jsToLower mt))) with
    | some mt => .error ("Invalid meal type: " ++ mt)
    | none =>
    match body.deliveryDays.find? (fun d => !(validDeliveryDays.contains (jsToLower d))) with
    | some d => .error ("Invalid delivery day: " ++ d)
    | none =>
    if body.plan ≤ 0 then
      .error "Invalid plan ID"
    else
    match mealPlan with
    | none => .error "Invalid plan selected"
    | some plan =>
    match mapTokens MEAL_TYPE_MAP "Invalid meal type: " body.mealTypes with
    | .error e => .error e
    | .ok mealTypeNumbers =>
      if 1 < |body.totalPrice - computePrice plan.price_per_meal
          body.mealTypes.length body.deliveryDays.length| then
        .error "Price mismatch"
      else
      match mapTokens DAY_OF_WEEK_MAP "Invalid delivery day: " body.deliveryDays with
      | .error e => .error e
      | .ok dayNumbers =>
        .ok { sub := { meal_plan_id := body.plan
                       meal_type := mealTypeNumbers.headD 0
                       total_price := computePrice plan.price_per_meal
                         body.mealTypes.length body.deliveryDays.length
                       allergies := body.allergies
                       meal_types_env := mealTypeNumbers
                       status := .active }
              pauses := []
              days := dayNumbers
              nextPauseId := 1 }

/-- Body of the POST pause request: start date and optional end date, as day
numbers (`today` is the handler's midnight-truncated current date). -/
structure PauseRequest where
  startDate : Int
  endDate : Option Int
deriving Repr

/-- The POST pause handler of `[id]/route.ts` (date guards, status guard,
open-pause guard, then pause-record insert and status update), in source
order. -/
def POST_pause (s : SubState) (req : PauseRequest) (today : Int) :
    Except String SubState :=
  if req.startDate ≤ today then
    .error "Start date must be after today"
  else if req.endDate.any (fun e => decide (e ≤ req.startDate)) then
    .error "End date must be after start date"
  else if s.sub.status ≠ SubStatus.active then
    .error "Only active subscriptions can be paused"
  else if s.pauses.any (fun r => r.end_date.isNone) then
    .error "Subscription is already paused"
  else
    .ok { s with
      sub := { s.sub with status := .paused }
      pauses := s.pauses ++ [⟨s.nextPauseId, req.startDate, req.endDate⟩]
      nextPauseId := s.nextPauseId + 1 }

/-- The record the resume handler's `orderBy(id).limit(1)` query selects: the
pause record with the smallest id (ties broken toward the earlier row; in
reachable states ids are distinct). -/
def findMinIdRecord : List PauseRecord → Option PauseRecord
  | [] => none
  | r :: rs =>
    match findMinIdRecord rs with
    | none => some r
    | some m => if r.id ≤ m.id then some r else some m

/-- The DELETE resume handler of `[id]/route.ts`: status guard; select the
`orderBy(id).limit(1)` pause record; if none exists, insert one
(start = today, end = null) and immediately close it (net effect: one closed
record ending today); otherwise set the selected record's end date to today;
finally set status back to `active`. -/
def DELETE_resume (s : SubState) (today : Int) : Except String SubState :=
  if s.sub.status ≠ SubStatus.paused then
    .error "Only paused subscriptions can be resumed"
  else
    match findMinIdRecord s.pauses with
    | none =>
      .ok { s with
        sub := { s.sub with status := .active }
        pauses := s.pauses ++ [⟨s.nextPauseId, today, some today⟩]
        nextPauseId := s.nextPauseId + 1 }
    | some r0 =>
      .ok { s with
        sub := { s.sub with status := .active }
        pauses := s.pauses.map (fun r =>
          if r.id = r0.id then { r with end_date := some today } else r) }

/-- The DELETE cancel handler of `[id]/route.ts`: after the ownership lookup
it unconditionally sets status to `cancelled` — there is no status guard. -/
def DELETE_cancel (s : SubState) : Except String SubState :=
  .ok { s with sub := { s.sub with status := .cancelled } }

/-- The `isPaused` flag as computed by the GET read path of
`my-subscriptions/route.ts`: the status field alone. -/
def isPausedView (s : SubState) : Bool :=
  s.sub.status = SubStatus.paused

/-- The `paused_until` value as computed by the GET read path: the end date of the
`orderBy(id).limit(1)` pause record, surfaced only when `isPaused` and that
end date is non-null. -/
def pausedUntilView (s : SubState) : Option Int :=
  if isPausedView s then
    match findMinIdRecord s.pauses with
    | some r => r.end_date
    | none => none
  else none

/-- A mutating lifecycle operation on an existing subscription. -/
inductive Op where
  | edit (body : UpdateSubscriptionRequest) (mealPlan : Option MealPlan)
  | pause (req : PauseRequest) (today : Int)
  | resume (today : Int)
  | cancel

/-- Dispatch an operation to its handler. -/
def applyOp : Op → SubState → Except String SubState
  | .edit body mp, s => PUT_update s body mp
  | .pause req t, s => POST_pause s req t
  | .resume t, s => DELETE_resume s t
  | .cancel, s => DELETE_cancel s

/-- States reachable from a successful create by successful lifecycle
operations. -/
inductive Reachable : SubState → Prop where
  | create (body : CreateSubscriptionRequest) (mp : Option MealPlan) (s : SubState) :
      POST_create body mp = .ok s → Reachable s
  | step (op : Op) (s s' : SubState) :
      Reachable s → applyOp op s = .ok s' → Reachable s'

/-- A pause record counted "open" at a date: end date null or strictly in the
future (the spec's §3 notion). -/
def openAt (today : Int) (r : PauseRecord) : Bool :=
  match r.end_date with
  | none => true
  | some e => today < e

/-- Number of open-ended (null end date) pause records. -/
def nullEndCount (ps : List PauseRecord) : Nat :=
  (ps.filter (fun r => r.end_date.isNone)).length

/-! ### Helper lemmas -/

lemma mapTokens_ok_of_valid (f : String → Option Nat) (e : String) (l : List String)
    (h : ∀ t ∈ l, (f t).isSome) :
    mapTokens f e l = .ok (l.filterMap f) := by
  induction l with
  | nil => rfl
  | cons t ts ih =>
    have ht := h t (List.mem_cons_self t ts)
    obtain ⟨n, hn⟩ := Option.isSome_iff_exists.mp ht
    simp only [mapTokens, hn, List.filterMap_cons,
      ih (fun x hx => h x (List.mem_cons_of_mem t hx))]
    rfl

lemma find?_invalid_none (valid : List String) (l : List String)
    (h : ∀ t ∈ l, valid.contains (jsToLower t) = true) :
    l.find? (fun t => !(valid.contains (jsToLower t))) = none := by
  rw [List.find?_eq_none]
  intro x hx
  simpa using h x hx

lemma mealToken_lower (t : String) (ht : t ∈ validMealTypes) :
    validMealTypes.contains (jsToLower t) = true := by
  fin_cases ht <;> decide

lemma mealToken_some (t : String) (ht : t ∈ validMealTypes) :
    (MEAL_TYPE_MAP t).isSome := by
  fin_cases ht <;> decide

lemma dayToken_lower (t : String) (ht : t ∈ validDeliveryDays) :
    validDeliveryDays.contains (jsToLower t) = true := by
  fin_cases ht <;> decide

lemma dayToken_some (t : String) (ht : t ∈ validDeliveryDays) :
    (DAY_OF_WEEK_MAP t).isSome := by
  fin_cases ht <;> decide

/-- Under the validity guards, the PUT edit handler reduces to the price
check followed by the row rewrite. -/
lemma PUT_update_guards (s : SubState) (body : UpdateSubscriptionRequest)
    (plan : MealPlan)
    (hpid : 0 < body.planId)
    (hm : body.mealTypes ≠ [])
    (hd : body.deliveryDays ≠ [])
    (hmt : ∀ t ∈ body.mealTypes, t ∈ validMealTypes)
    (hdt : ∀ t ∈ body.deliveryDays, t ∈ validDeliveryDays) :
    PUT_update s body (some plan) =
      if 1 < |body.totalPrice - computePrice plan.price_per_meal
          body.mealTypes.length body.deliveryDays.length| then
        .error "Price mismatch"
      else
        .ok { s with
          sub := { s.sub with
            meal_plan_id := body.planId
            meal_type := (body.mealTypes.filterMap MEAL_TYPE_MAP).headD 0
            total_price := computePrice plan.price_per_meal
              body.mealTypes.length body.deliveryDays.length
            allergies := body.allergies
            meal_types_env := body.mealTypes.filterMap MEAL_TYPE_MAP }
          days := body.deliveryDays.filterMap (fun d => DAY_OF_WEEK_MAP (jsToLower d)) } := by
  have h1 : ¬ (body.planId ≤ 0 ∨ body.mealTypes.isEmpty ∨ body.deliveryDays.isEmpty) := by
    simp [List.isEmpty_iff, hm, hd]
    omega
  have h2 := find?_invalid_none validMealTypes body.mealTypes
    (fun t ht => mealToken_lower t (hmt t ht))
  have h3 := find?_invalid_none validDeliveryDays body.deliveryDays
    (fun t ht => dayToken_lower t (hdt t ht))
  have h4 := mapTokens_ok_of_valid MEAL_TYPE_MAP "Invalid meal type: " body.mealTypes
    (fun t ht => mealToken_some t (hmt t ht))
  simp only [PUT_update, h1, if_false, h2, h3, h4]

/-- Under the validity guards, the POST create handler reduces to the price
check followed by the row insert. -/
lemma POST_create_guards (body : CreateSubscriptionRequest) (plan : MealPlan)
    (hname : body.name ≠ "")
    (hphone : body.phone ≠ "")
    (hplan : 0 < body.plan)
    (hm : body.mealTypes ≠ [])
    (hd : body.deliveryDays ≠ [])
    (hmt : ∀ t ∈ body.mealTypes, t ∈ validMealTypes)
    (hdt : ∀ t ∈ body.deliveryDays, t ∈ validDeliveryDays) :
    POST_create body (some plan) =
      if 1 < |body.totalPrice - computePrice plan.price_per_meal
          body.mealTypes.length body.deliveryDays.length| then
        .error "Price mismatch"
      else
        .ok { sub := { meal_plan_id := body.plan
                       meal_type := (body.mealTypes.filterMap MEAL_TYPE_MAP).headD 0
                       total_price := computePrice plan.price_per_meal
                         body.mealTypes.length body.deliveryDays.length
                       allergies := body.allergies
                       meal_types_env := body.mealTypes.filterMap MEAL_TYPE_MAP
                       status := .active }
              pauses := []
              days := body.deliveryDays.filterMap DAY_OF_WEEK_MAP
              nextPauseId := 1 } := by
  have h1 : ¬ (body.name = "" ∨ body.phone = "" ∨
      body.mealTypes.isEmpty ∨ body.deliveryDays.isEmpty) := by
    simp [List.isEmpty_iff, hname, hphone, hm, hd]
  have h2 := find?_invalid_none validMealTypes body.mealTypes
    (fun t ht => mealToken_lower t (hmt t ht))
  have h3 := find?_invalid_none validDeliveryDays body.deliveryDays
    (fun t ht => dayToken_lower t (hdt t ht))
  have h4 := mapTokens_ok_of_valid MEAL_TYPE_MAP "Invalid meal type: " body.mealTypes
    (fun t ht => mealToken_some t (hmt t ht))
  have h5 := mapTokens_ok_of_valid DAY_OF_WEEK_MAP "Invalid delivery day: " body.deliveryDays
    (fun t ht => dayToken_some t (hdt t ht))
  have h6 : ¬ (body.plan ≤ 0) := not_le.mpr hplan
  simp only [POST_create, h1, if_false, h2, h3, h4, h5, h6]

/-- Success inversion for the PUT edit handler: a plan was found, the meal
types mapped, the price was within tolerance, and the new state is the row
rewrite with the computed price and the replaced delivery days. -/
lemma PUT_update_ok (s : SubState) (body : UpdateSubscriptionRequest)
    (mp : Option MealPlan) (s' : SubState)
    (h : PUT_update s body mp = .ok s') :
    ∃ plan mealTypeNumbers, mp = some plan ∧
      mapTokens MEAL_TYPE_MAP "Invalid meal type: " body.mealTypes = .ok mealTypeNumbers ∧
      ¬ 1 < |body.totalPrice - computePrice plan.price_per_meal
          body.mealTypes.length body.deliveryDays.length| ∧
      s' = { s with
        sub := { s.sub with
          meal_plan_id := body.planId
          meal_type := mealTypeNumbers.headD 0
          total_price := computePrice plan.price_per_meal
            body.mealTypes.length body.deliveryDays.length
          allergies := body.allergies
          meal_types_env := mealTypeNumbers }
        days := body.deliveryDays.filterMap (fun d => DAY_OF_WEEK_MAP (jsToLower d)) } := by
  unfold PUT_update at h
  split at h
  · exact absurd h (by simp)
  split at h
  · exact absurd h (by simp)
  split at h
  · exact absurd h (by simp)
  split at h
  · exact absurd h (by simp)
  next mealTypeNumbers hmap =>
  split at h
  · exact absurd h (by simp)
  next plan =>
  split at h
  · exact absurd h (by simp)
  next hprice =>
  exact ⟨plan, mealTypeNumbers, rfl, hmap, hprice, (Except.ok.injEq _ _).mp h |>.symm⟩

/-- Success inversion for the POST create handler. -/
lemma POST_create_ok (body : CreateSubscriptionRequest)
    (mp : Option MealPlan) (s' : SubState)
    (h : POST_create body mp = .ok s') :
    ∃ plan mealTypeNumbers dayNumbers, mp = some plan ∧
      mapTokens MEAL_TYPE_MAP "Invalid meal type: " body.mealTypes = .ok mealTypeNumbers ∧
      mapTokens DAY_OF_WEEK_MAP "Invalid delivery day: " body.deliveryDays = .ok dayNumbers ∧
      ¬ 1 < |body.totalPrice - computePrice plan.price_per_meal
          body.mealTypes.length body.deliveryDays.length| ∧
      s' = { sub := { meal_plan_id := body.plan
                      meal_type := mealTypeNumbers.headD 0
                      total_price := computePrice plan.price_per_meal
                        body.mealTypes.length body.deliveryDays.length
                      allergies := body.allergies
                      meal_types_env := mealTypeNumbers
                      status := .active }
             pauses := []
             days := dayNumbers
             nextPauseId := 1 } := by
  unfold POST_create at h
  split at h
  · exact absurd h (by simp)
  split at h
  · exact absurd h (by simp)
  split at h
  · exact absurd h (by simp)
  split at h
  · exact absurd h (by simp)
  split at h
  · exact absurd h (by simp)
  next plan =>
  split at h
  · exact absurd h (by simp)
  next mealTypeNumbers hmap =>
  split at h
  · exact absurd h (by simp)
  next hprice =>
  split at h
  · exact absurd h (by simp)
  next dayNumbers hdays =>
  exact ⟨plan, mealTypeNumbers, dayNumbers, rfl, hmap, hdays, hprice,
    (Except.ok.injEq _ _).mp h |>.symm⟩

/-- Success inversion for the POST pause handler: every guard passed and the
new state appends one pause record and sets status `paused`. -/
lemma POST_pause_ok (s : SubState) (req : PauseRequest) (today : Int) (s' : SubState)
    (h : POST_pause s req today = .ok s') :
    today < req.startDate ∧
    (∀ e, req.endDate = some e → req.startDate < e) ∧
    s.sub.status = .active ∧
    (∀ r ∈ s.pauses, r.end_date ≠ none) ∧
    s' = { s with
      sub := { s.sub with status := .paused }
      pauses := s.pauses ++ [⟨s.nextPauseId, req.startDate, req.endDate⟩]
      nextPauseId := s.nextPauseId + 1 } := by
  unfold POST_pause at h
  split at h
  · exact absurd h (by simp)
  next hstart =>
  split at h
  · exact absurd h (by simp)
  next hend =>
  split at h
  · exact absurd h (by simp)
  next hstatus =>
  split at h
  · exact absurd h (by simp)
  next hopen =>
  refine ⟨by omega, ?_, ?_, ?_, (Except.ok.injEq _ _).mp h |>.symm⟩
  · intro e he
    rw [he] at hend
    simp only [Option.any_some, decide_eq_true_eq] at hend
    omega
  · by_contra hne
    exact hstatus (by simpa using hne)
  · intro r hr
    intro hnone
    exact hopen (List.any_eq_true.mpr ⟨r, hr, by simp [hnone]⟩)

/-- Success inversion for the DELETE resume handler: the subscription was
paused, and the new state is `active` with either a synthesised closed record
(empty ledger) or the minimum-id record's end date set to today. -/
lemma DELETE_resume_ok (s : SubState) (today : Int) (s' : SubState)
    (h : DELETE_resume s today = .ok s') :
    s.sub.status = .paused ∧
    ((findMinIdRecord s.pauses = none ∧
        s' = { s with
          sub := { s.sub with status := .active }
          pauses := s.pauses ++ [⟨s.nextPauseId, today, some today⟩]
          nextPauseId := s.nextPauseId + 1 }) ∨
      (∃ r0, findMinIdRecord s.pauses = some r0 ∧
        s' = { s with
          sub := { s.sub with status := .active }
          pauses := s.pauses.map (fun r =>
            if r.id = r0.id then { r with end_date := some today } else r) })) := by
  unfold DELETE_resume at h
  split at h
  · exact absurd h (by simp)
  next hstatus =>
  have hp : s.sub.status = .paused := by
    by_contra hne
    exact hstatus (by simpa using hne)
  split at h
  next hfind =>
    exact ⟨hp, .inl ⟨hfind, (Except.ok.injEq _ _).mp h |>.symm⟩⟩
  next r0 hfind =>
    exact ⟨hp, .inr ⟨r0, hfind, (Except.ok.injEq _ _).mp h |>.symm⟩⟩

lemma findMinIdRecord_eq_none (l : List PauseRecord) :
    findMinIdRecord l = none ↔ l = [] := by
  cases l with
  | nil => simp [findMinIdRecord]
  | cons r rs =>
    simp only [findMinIdRecord]
    constructor
    · intro h
      cases hx : findMinIdRecord rs with
      | none => rw [hx] at h; cases h
      | some m =>
        rw [hx] at h
        change (if r.id ≤ m.id then some r else some m) = none at h
        by_cases hle : r.id ≤ m.id
        · rw [if_pos hle] at h; cases h
        · rw [if_neg hle] at h; cases h
    · intro h
      exact absurd h (List.cons_ne_nil r rs)

lemma findMinIdRecord_mem (l : List PauseRecord) (r : PauseRecord)
    (h : findMinIdRecord l = some r) : r ∈ l := by
  induction l generalizing r with
  | nil => cases h
  | cons x xs ih =>
    simp only [findMinIdRecord] at h
    cases hx : findMinIdRecord xs with
    | none =>
      rw [hx] at h
      obtain rfl := Option.some.inj h
      exact List.mem_cons_self _ _
    | some m =>
      rw [hx] at h
      change (if x.id ≤ m.id then some x else some m) = some r at h
      by_cases hle : x.id ≤ m.id
      · rw [if_pos hle] at h
        obtain rfl := Option.some.inj h
        exact List.mem_cons_self _ _
      · rw [if_neg hle] at h
        obtain rfl := Option.some.inj h
        exact List.mem_cons_of_mem _ (ih _ hx)

lemma findMinIdRecord_min (l : List PauseRecord) (r0 : PauseRecord)
    (h : findMinIdRecord l = some r0) : ∀ r ∈ l, r0.id ≤ r.id := by
  induction l generalizing r0 with
  | nil => cases h
  | cons x xs ih =>
    intro r hr
    simp only [findMinIdRecord] at h
    cases hx : findMinIdRecord xs with
    | none =>
      rw [hx] at h
      obtain rfl := Option.some.inj h
      rcases List.mem_cons.mp hr with rfl | hmem
      · exact le_refl _
      · rw [(findMinIdRecord_eq_none xs).mp hx] at hmem
        exact absurd hmem (List.not_mem_nil r)
    | some m =>
      rw [hx] at h
      change (if x.id ≤ m.id then some x else some m) = some r0 at h
      by_cases hle : x.id ≤ m.id
      · rw [if_pos hle] at h
        obtain rfl := Option.some.inj h
        rcases List.mem_cons.mp hr with rfl | hmem
        · exact le_refl _
        · exact le_trans hle (ih m hx r hmem)
      · rw [if_neg hle] at h
        obtain rfl := Option.some.inj h
        rcases List.mem_cons.mp hr with rfl | hmem
        · omega
        · exact ih m hx r hmem

/-! ### Concrete fixtures used by witnesses and counterexamples -/

/-- A meal plan with price-per-meal 10. -/
def plan0 : MealPlan := ⟨1, 10⟩

/-- An active subscription with one delivery day and no pause history
(exactly the state `POST_create` produces for `cbody0`). -/
def sA : SubState := ⟨⟨1, 0, 43, none, [0], .active⟩, [], [1], 1⟩

/-- State `sA` after a plain cancel. -/
def sAC : SubState := ⟨⟨1, 0, 43, none, [0], .cancelled⟩, [], [1], 1⟩

/-- A well-priced create request for `plan0`: 10 × 1 × 1 × 4.3 = 43. -/
def cbody0 : CreateSubscriptionRequest :=
  ⟨"a", "b", 1, ["breakfast"], ["monday"], none, 43⟩

/-- A create request whose submitted price 100 differs from the computed 43
by more than 1. -/
def cbodyBad : CreateSubscriptionRequest :=
  ⟨"a", "b", 1, ["breakfast"], ["monday"], none, 100⟩

/-- A well-priced edit request for `plan0`: 10 × 2 × 2 × 4.3 = 172. -/
def putGood : UpdateSubscriptionRequest :=
  ⟨1, ["breakfast", "lunch"], ["monday", "wednesday"], none, 172⟩

/-- An edit request whose submitted price 100 differs from the computed 43
by more than 1. -/
def putBad : UpdateSubscriptionRequest :=
  ⟨1, ["breakfast"], ["monday"], none, 100⟩

/-- State `sA` after a successful `putGood` edit. -/
def sAafter : SubState := ⟨⟨1, 0, 172, none, [0, 1], .active⟩, [], [1, 3], 1⟩

lemma create0_ok : POST_create cbody0 (some plan0) = .ok sA := by
  rw [POST_create_guards cbody0 plan0 (by decide) (by decide) (by decide) (by decide)
    (by decide) (by decide) (by decide)]
  rw [if_neg (by norm_num [computePrice, monthlyMultiplier, cbody0, plan0])]
  norm_num [computePrice, monthlyMultiplier, cbody0, plan0, sA]
  decide

lemma putGood_ok : PUT_update sA putGood (some plan0) = .ok sAafter := by
  rw [PUT_update_guards sA putGood plan0 (by decide) (by decide) (by decide)
    (by decide) (by decide)]
  rw [if_neg (by norm_num [computePrice, monthlyMultiplier, putGood, plan0])]
  norm_num [computePrice, monthlyMultiplier, putGood, plan0, sA, sAafter]
  decide

/-! ### Claims -/

/-- C2: every successful lifecycle operation moves the status only along
active→paused (pause), paused→active (resume), active→cancelled and
paused→cancelled (cancel) — or leaves it unchanged — and in particular a
cancelled status never becomes active or paused. -/
theorem c2_status_transitions (op : Op) (s s' : SubState)
    (h : applyOp op s = .ok s') :
    (s.sub.status = s'.sub.status ∨
      (s.sub.status = .active ∧ s'.sub.status = .paused) ∨
      (s.sub.status = .paused ∧ s'.sub.status = .active) ∨
      ((s.sub.status = .active ∨ s.sub.status = .paused) ∧
        s'.sub.status = .cancelled)) ∧
    (s.sub.status = .cancelled → s'.sub.status = .cancelled) := by
  cases op with
  | edit body mp =>
    obtain ⟨plan, ns, -, -, -, rfl⟩ := PUT_update_ok s body mp s' h
    exact ⟨.inl rfl, fun hc => hc⟩
  | pause req t =>
    obtain ⟨-, -, hact, -, rfl⟩ := POST_pause_ok s req t s' h
    refine ⟨.inr (.inl ⟨hact, rfl⟩), fun hc => ?_⟩
    rw [hact] at hc
    cases hc
  | resume t =>
    obtain ⟨hpau, hcase⟩ := DELETE_resume_ok s t s' h
    have hact : s'.sub.status = .active := by
      rcases hcase with ⟨-, rfl⟩ | ⟨r0, -, rfl⟩ <;> rfl
    refine ⟨.inr (.inr (.inl ⟨hpau, hact⟩)), fun hc => ?_⟩
    rw [hpau] at hc
    cases hc
  | cancel =>
    have hs' : s' = { s with sub := { s.sub with status := .cancelled } } :=
      ((Except.ok.injEq _ _).mp h).symm
    subst hs'
    refine ⟨?_, fun _ => rfl⟩
    cases hst : s.sub.status with
    | active => exact .inr (.inr (.inr ⟨.inl rfl, rfl⟩))
    | paused => exact .inr (.inr (.inr ⟨.inr rfl, rfl⟩))
    | cancelled => exact .inl rfl

/-- C2 witness: cancelling the concrete active subscription `sA`. -/
theorem c2_witness :
    (sA.sub.status = sAC.sub.status ∨
      (sA.sub.status = .active ∧ sAC.sub.status = .paused) ∨
      (sA.sub.status = .paused ∧ sAC.sub.status = .active) ∨
      ((sA.sub.status = .active ∨ sA.sub.status = .paused) ∧
        sAC.sub.status = .cancelled)) ∧
    (sA.sub.status = .cancelled → sAC.sub.status = .cancelled) :=
  c2_status_transitions .cancel sA sAC rfl

/-- A paused subscription whose ledger holds two records: the first-inserted
one (id 1) already closed with end date 2, the most recent one (id 2) still
open-ended. -/
def c3state : SubState :=
  ⟨⟨1, 0, 43, none, [0], .paused⟩, [⟨1, 1, some 2⟩, ⟨2, 3, none⟩], [1], 3⟩

/-- C3 counterexample: resuming `c3state` at day 5 sets the end date of the
FIRST-inserted record (id 1, the `orderBy(id).limit(1)` row) to 5 and leaves
the most-recently-inserted record (id 2) untouched (`end_date` still null) —
the claim predicts the opposite: record id 2 should end at 5 and record id 1
stay unchanged. -/
theorem c3_counterexample :
    (DELETE_resume c3state 5).toOption.map
        (fun s => s.pauses.map (fun r => (r.id, r.end_date)))
      = some [(1, some 5), (2, none)] := by decide

/-- C3 (amended): the resume operation sets the end date of the
FIRST-inserted (minimum-id) pause record to today, regardless of whether that
record is open or closed, and leaves every other pause record unchanged. -/
theorem c3_resume_targets_first_record (s : SubState) (today : Int)
    (s' : SubState) (r0 : PauseRecord)
    (hfind : findMinIdRecord s.pauses = some r0)
    (h : DELETE_resume s today = .ok s') :
    (∀ r ∈ s.pauses, r0.id ≤ r.id) ∧
    s'.pauses = s.pauses.map (fun r =>
      if r.id = r0.id then { r with end_date := some today } else r) ∧
    (∀ r ∈ s.pauses, r.id ≠ r0.id → r ∈ s'.pauses) := by
  obtain ⟨-, hcase⟩ := DELETE_resume_ok s today s' h
  rcases hcase with ⟨hnone, -⟩ | ⟨r1, hfind1, rfl⟩
  · rw [hfind] at hnone
    cases hnone
  · rw [hfind] at hfind1
    have hr01 := Option.some.inj hfind1
    subst hr01
    refine ⟨findMinIdRecord_min s.pauses r0 hfind, rfl, fun r hr hne => ?_⟩
    exact List.mem_map.mpr ⟨r, hr, by rw [if_neg hne]⟩

/-- State `c3state` after resuming at day 5. -/
def c3after : SubState :=
  ⟨⟨1, 0, 43, none, [0], .active⟩, [⟨1, 1, some 5⟩, ⟨2, 3, none⟩], [1], 3⟩

/-- C3 witness: the amended theorem instantiated on `c3state` at day 5. -/
theorem c3_witness :
    (∀ r ∈ c3state.pauses, (⟨1, 1, some 2⟩ : PauseRecord).id ≤ r.id) ∧
    c3after.pauses = c3state.pauses.map (fun r =>
      if r.id = (⟨1, 1, some 2⟩ : PauseRecord).id then
        { r with end_date := some 5 } else r) ∧
    (∀ r ∈ c3state.pauses, r.id ≠ (⟨1, 1, some 2⟩ : PauseRecord).id →
      r ∈ c3after.pauses) :=
  c3_resume_targets_first_record c3state 5 c3after ⟨1, 1, some 2⟩ (by decide) rfl

/-- An already-cancelled subscription. -/
def c4state : SubState := ⟨⟨1, 0, 43, none, [0], .cancelled⟩, [], [1], 1⟩

/-- C4 counterexample: a second cancel on the already-cancelled `c4state`
returns a success (`.ok`, surfaced as "Subscription cancelled successfully"),
not a rejection — the claim says it must fail. -/
theorem c4_counterexample :
    c4state.sub.status = .cancelled ∧
    (DELETE_cancel c4state).toOption.map (fun s => s.sub.status)
      = some .cancelled := by decide

/-- C4 (amended): a second cancel on an already-cancelled subscription
silently succeeds (the handler has no status guard), leaving the status
cancelled and the rest of the state untouched. -/
theorem c4_second_cancel_succeeds (s : SubState)
    (_hc : s.sub.status = .cancelled) :
    ∃ s', DELETE_cancel s = .ok s' ∧ s'.sub.status = .cancelled ∧
      s'.pauses = s.pauses ∧ s'.days = s.days ∧
      s'.sub.total_price = s.sub.total_price :=
  ⟨_, rfl, rfl, rfl, rfl, rfl⟩

/-- C4 witness: the amended theorem instantiated on `c4state`. -/
theorem c4_witness :
    ∃ s', DELETE_cancel c4state = .ok s' ∧ s'.sub.status = .cancelled ∧
      s'.pauses = c4state.pauses ∧ s'.days = c4state.days ∧
      s'.sub.total_price = c4state.sub.total_price :=
  c4_second_cancel_succeeds c4state (by decide)

/-- C5: the read path reports the subscription paused exactly when its status
field is `paused` (unchanged under replacing the whole pause ledger, i.e.
independent of any pause-record dates), and the displayed paused-until value
is `e` exactly when the subscription is paused and the consulted
(`orderBy(id).limit(1)`) pause record exists with non-null end date `e`. -/
theorem c5_paused_view (s : SubState) (ps : List PauseRecord) (e : Int) :
    (isPausedView s = true ↔ s.sub.status = .paused) ∧
    isPausedView { s with pauses := ps } = isPausedView s ∧
    (pausedUntilView s = some e ↔
      (s.sub.status = .paused ∧
        ∃ r, findMinIdRecord s.pauses = some r ∧ r.end_date = some e)) := by
  refine ⟨by simp [isPausedView], rfl, ?_⟩
  unfold pausedUntilView isPausedView
  by_cases hs : s.sub.status = .paused
  · cases hfind : findMinIdRecord s.pauses with
    | none => simp [hs, hfind]
    | some r => simp [hs, hfind]
  · simp [hs]

/-- An (inconsistent) paused subscription with an empty pause ledger. -/
def c6state : SubState := ⟨⟨1, 0, 43, none, [0], .paused⟩, [], [1], 1⟩

/-- C6: resuming a paused subscription with zero pause records succeeds, and
afterwards the status is active and the ledger holds exactly one record,
closed with end date (and start date) today. -/
theorem c6_resume_empty_ledger (s : SubState) (today : Int)
    (hst : s.sub.status = .paused) (hp : s.pauses = []) :
    ∃ s', DELETE_resume s today = .ok s' ∧
      s'.sub.status = .active ∧
      s'.pauses = [⟨s.nextPauseId, today, some today⟩] ∧
      s'.pauses.all (fun r => !(openAt today r)) = true := by
  refine ⟨{ s with
      sub := { s.sub with status := .active }
      pauses := s.pauses ++ [⟨s.nextPauseId, today, some today⟩]
      nextPauseId := s.nextPauseId + 1 }, ?_, rfl, ?_, ?_⟩
  · unfold DELETE_resume
    rw [if_neg (by simp [hst]),
      show findMinIdRecord s.pauses = none from
        (findMinIdRecord_eq_none s.pauses).mpr hp]
  · simp [hp]
  · simp [hp, openAt]

/-- C6 witness: resuming the concrete record-less paused state `c6state` at
day 7. -/
theorem c6_witness :
    ∃ s', DELETE_resume c6state 7 = .ok s' ∧
      s'.sub.status = .active ∧
      s'.pauses = [⟨c6state.nextPauseId, 7, some 7⟩] ∧
      s'.pauses.all (fun r => !(openAt 7 r)) = true :=
  c6_resume_empty_ledger c6state 7 (by decide) (by decide)

/-- C8: each pause precondition violation is rejected with the message naming
the failed guard (an `.error` result carries no state change in this
embedding): a start date not after today yields the start-date message
(unconditionally — this guard runs first); a given end date not strictly
after a valid start date yields the end-date message; a non-active status
with valid dates yields the status message. -/
theorem c8_pause_guard_messages (s : SubState) (req : PauseRequest) (today : Int) :
    (req.startDate ≤ today →
      POST_pause s req today = .error "Start date must be after today") ∧
    (today < req.startDate → ∀ e, req.endDate = some e → e ≤ req.startDate →
      POST_pause s req today = .error "End date must be after start date") ∧
    (today < req.startDate → (∀ e, req.endDate = some e → req.startDate < e) →
      s.sub.status ≠ .active →
      POST_pause s req today = .error "Only active subscriptions can be paused") := by
  refine ⟨?_, ?_, ?_⟩
  · intro h1
    unfold POST_pause
    rw [if_pos h1]
  · intro h1 e he h2
    unfold POST_pause
    rw [if_neg (by omega), if_pos (by rw [he]; simpa using h2)]
  · intro h1 h2 h3
    unfold POST_pause
    rw [if_neg (by omega), if_neg ?_, if_pos h3]
    cases he : req.endDate with
    | none => simp
    | some e =>
      have := h2 e he
      simp only [Option.any_some, decide_eq_true_eq]
      omega

/-- C8 witness: the three guard rejections exercised on concrete states. -/
theorem c8_witness :
    POST_pause sA ⟨0, none⟩ 0 = .error "Start date must be after today" ∧
    POST_pause sA ⟨1, some 1⟩ 0 = .error "End date must be after start date" ∧
    POST_pause c6state ⟨1, some 2⟩ 0
      = .error "Only active subscriptions can be paused" :=
  ⟨(c8_pause_guard_messages sA ⟨0, none⟩ 0).1 (by decide),
   (c8_pause_guard_messages sA ⟨1, some 1⟩ 0).2.1 (by decide) 1 rfl (by decide),
   (c8_pause_guard_messages c6state ⟨1, some 2⟩ 0).2.2 (by decide)
     (fun e he => by cases he; decide) (by decide)⟩

/-- The edit handler's guards and its resulting delivery-day rows read
nothing from the incoming state, so the stored day rows after an edit do not
depend on the previous day rows. -/
lemma PUT_update_days_const (s1 s2 : SubState) (body : UpdateSubscriptionRequest)
    (mp : Option MealPlan) :
    (PUT_update s1 body mp).toOption.map SubState.days
      = (PUT_update s2 body mp).toOption.map SubState.days := by
  unfold PUT_update
  split
  · rfl
  split
  · rfl
  split
  · rfl
  split
  · rfl
  split
  · rfl
  split <;> rfl

/-- C9: after a successful edit the stored delivery-day rows are exactly the
mapped submitted days — a weekday code is stored iff some submitted token
maps to it — and the previous day rows have no influence on the result (full
replacement, never a merge). -/
theorem c9_days_fully_replaced (s : SubState) (body : UpdateSubscriptionRequest)
    (mp : Option MealPlan) (s' : SubState)
    (h : PUT_update s body mp = .ok s') :
    s'.days = body.deliveryDays.filterMap (fun d => DAY_OF_WEEK_MAP (jsToLower d)) ∧
    (∀ n, n ∈ s'.days ↔
      ∃ t ∈ body.deliveryDays, DAY_OF_WEEK_MAP (jsToLower t) = some n) ∧
    (∀ ds, (PUT_update { s with days := ds } body mp).toOption.map SubState.days
      = some s'.days) := by
  have hconst : ∀ ds, (PUT_update { s with days := ds } body mp).toOption.map
      SubState.days = (PUT_update s body mp).toOption.map SubState.days := by
    intro ds
    exact PUT_update_days_const _ _ body mp
  obtain ⟨plan, ns, rfl, hmap, hprice, rfl⟩ := PUT_update_ok s body mp s' h
  refine ⟨rfl, fun n => ?_, fun ds => ?_⟩
  · simp only [List.mem_filterMap]
  · rw [hconst ds, h]
    rfl

/-- C9 witness: the edit `putGood` on `sA` replaces the single stored day row
with the two submitted days. -/
theorem c9_witness :
    sAafter.days = putGood.deliveryDays.filterMap
      (fun d => DAY_OF_WEEK_MAP (jsToLower d)) ∧
    (∀ n, n ∈ sAafter.days ↔
      ∃ t ∈ putGood.deliveryDays, DAY_OF_WEEK_MAP (jsToLower t) = some n) ∧
    (∀ ds, (PUT_update { sA with days := ds } putGood (some plan0)).toOption.map
        SubState.days = some sAafter.days) :=
  c9_days_fully_replaced sA putGood (some plan0) sAafter putGood_ok

/-- C10: on any successful create or edit the persisted total price is
exactly the server-computed `price_per_meal × |mealTypes| × |deliveryDays| ×
4.3`; whenever the client-submitted price differs from the computed one (in
particular anywhere inside the accepted tolerance of 1), the submitted value
is not what gets stored. -/
theorem c10_submitted_price_never_stored
    (s : SubState) (body : UpdateSubscriptionRequest) (mp : Option MealPlan)
    (s' : SubState) (cbody : CreateSubscriptionRequest) (mp2 : Option MealPlan)
    (s0 : SubState) :
    (PUT_update s body mp = .ok s' → ∃ plan, mp = some plan ∧
      s'.sub.total_price = computePrice plan.price_per_meal
        body.mealTypes.length body.deliveryDays.length ∧
      (body.totalPrice ≠ computePrice plan.price_per_meal
          body.mealTypes.length body.deliveryDays.length →
        s'.sub.total_price ≠ body.totalPrice)) ∧
    (POST_create cbody mp2 = .ok s0 → ∃ plan, mp2 = some plan ∧
      s0.sub.total_price = computePrice plan.price_per_meal
        cbody.mealTypes.length cbody.deliveryDays.length ∧
      (cbody.totalPrice ≠ computePrice plan.price_per_meal
          cbody.mealTypes.length cbody.deliveryDays.length →
        s0.sub.total_price ≠ cbody.totalPrice)) := by
  constructor
  · intro h
    obtain ⟨plan, ns, rfl, -, -, rfl⟩ := PUT_update_ok s body mp s' h
    exact ⟨plan, rfl, rfl, fun hne => Ne.symm hne⟩
  · intro h
    obtain ⟨plan, ns, ds, rfl, -, -, -, rfl⟩ := POST_create_ok cbody mp2 s0 h
    exact ⟨plan, rfl, rfl, fun hne => Ne.symm hne⟩

/-- C10 witness: the concrete successful edit and create, where the stored
price is the computed 172 resp. 43. -/
theorem c10_witness :
    (∃ plan, (some plan0) = some plan ∧
      sAafter.sub.total_price = computePrice plan.price_per_meal
        putGood.mealTypes.length putGood.deliveryDays.length ∧
      (putGood.totalPrice ≠ computePrice plan.price_per_meal
          putGood.mealTypes.length putGood.deliveryDays.length →
        sAafter.sub.total_price ≠ putGood.totalPrice)) ∧
    (∃ plan, (some plan0) = some plan ∧
      sA.sub.total_price = computePrice plan.price_per_meal
        cbody0.mealTypes.length cbody0.deliveryDays.length ∧
      (cbody0.totalPrice ≠ computePrice plan.price_per_meal
          cbody0.mealTypes.length cbody0.deliveryDays.length →
        sA.sub.total_price ≠ cbody0.totalPrice)) :=
  ⟨(c10_submitted_price_never_stored sA putGood (some plan0) sAafter
      cbody0 (some plan0) sA).1 putGood_ok,
   (c10_submitted_price_never_stored sA putGood (some plan0) sAafter
      cbody0 (some plan0) sA).2 create0_ok⟩

/-- C1: the price computed by both create and edit is
`P × m × d × 4.3`; with valid inputs either operation rejects with the
price-mismatch validation error whenever the submitted total differs from the
computed value by more than 1; and on success the stored total price equals
the computed value within tolerance 1 (it is in fact equal). -/
theorem c1_price_formula_and_tolerance
    (s : SubState) (body : UpdateSubscriptionRequest)
    (cbody : CreateSubscriptionRequest) (plan : MealPlan)
    (_hP : 0 < plan.price_per_meal)
    (hpid : 0 < body.planId)
    (hm : body.mealTypes ≠ []) (hd : body.deliveryDays ≠ [])
    (hmt : ∀ t ∈ body.mealTypes, t ∈ validMealTypes)
    (hdt : ∀ t ∈ body.deliveryDays, t ∈ validDeliveryDays)
    (hname : cbody.name ≠ "") (hphone : cbody.phone ≠ "")
    (hcplan : 0 < cbody.plan)
    (hcm : cbody.mealTypes ≠ []) (hcd : cbody.deliveryDays ≠ [])
    (hcmt : ∀ t ∈ cbody.mealTypes, t ∈ validMealTypes)
    (hcdt : ∀ t ∈ cbody.deliveryDays, t ∈ validDeliveryDays) :
    computePrice plan.price_per_meal body.mealTypes.length body.deliveryDays.length
      = plan.price_per_meal * body.mealTypes.length * body.deliveryDays.length
        * (43 / 10) ∧
    (1 < |body.totalPrice - computePrice plan.price_per_meal
        body.mealTypes.length body.deliveryDays.length| →
      PUT_update s body (some plan) = .error "Price mismatch") ∧
    (∀ s', PUT_update s body (some plan) = .ok s' →
      |s'.sub.total_price - computePrice plan.price_per_meal
        body.mealTypes.length body.deliveryDays.length| ≤ 1) ∧
    (1 < |cbody.totalPrice - computePrice plan.price_per_meal
        cbody.mealTypes.length cbody.deliveryDays.length| →
      POST_create cbody (some plan) = .error "Price mismatch") ∧
    (∀ s0, POST_create cbody (some plan) = .ok s0 →
      |s0.sub.total_price - computePrice plan.price_per_meal
        cbody.mealTypes.length cbody.deliveryDays.length| ≤ 1) := by
  refine ⟨rfl, ?_, ?_, ?_, ?_⟩
  · intro hgap
    rw [PUT_update_guards s body plan hpid hm hd hmt hdt, if_pos hgap]
  · intro s' h
    obtain ⟨plan1, ns, hpl, -, -, rfl⟩ := PUT_update_ok s body (some plan) s' h
    obtain rfl := Option.some.inj hpl
    simp
  · intro hgap
    rw [POST_create_guards cbody plan hname hphone hcplan hcm hcd hcmt hcdt,
      if_pos hgap]
  · intro s0 h
    obtain ⟨plan1, ns, ds, hpl, -, -, -, rfl⟩ := POST_create_ok cbody (some plan) s0 h
    obtain rfl := Option.some.inj hpl
    simp

/-- C1 witness: with plan price 10 the computed edit price is 172 and the
computed create price is 43; submitting 100 is rejected with the
price-mismatch error on both paths, and the successful concrete edit/create
store a price within tolerance 1 of the computed value. -/
theorem c1_witness :
    PUT_update sA putBad (some plan0) = .error "Price mismatch" ∧
    |sAafter.sub.total_price - computePrice plan0.price_per_meal
      putGood.mealTypes.length putGood.deliveryDays.length| ≤ 1 ∧
    POST_create cbodyBad (some plan0) = .error "Price mismatch" ∧
    |sA.sub.total_price - computePrice plan0.price_per_meal
      cbody0.mealTypes.length cbody0.deliveryDays.length| ≤ 1 :=
  ⟨(c1_price_formula_and_tolerance sA putBad cbodyBad plan0 (by norm_num [plan0])
      (by decide) (by decide) (by decide) (by decide) (by decide) (by decide)
      (by decide) (by decide) (by decide) (by decide) (by decide) (by decide)).2.1
      (by norm_num [putBad, plan0, computePrice, monthlyMultiplier]),
   (c1_price_formula_and_tolerance sA putGood cbody0 plan0 (by norm_num [plan0])
      (by decide) (by decide) (by decide) (by decide) (by decide) (by decide)
      (by decide) (by decide) (by decide) (by decide) (by decide) (by decide)).2.2.1
      sAafter putGood_ok,
   (c1_price_formula_and_tolerance sA putBad cbodyBad plan0 (by norm_num [plan0])
      (by decide) (by decide) (by decide) (by decide) (by decide) (by decide)
      (by decide) (by decide) (by decide) (by decide) (by decide) (by decide)).2.2.2.1
      (by norm_num [cbodyBad, plan0, computePrice, monthlyMultiplier]),
   (c1_price_formula_and_tolerance sA putGood cbody0 plan0 (by norm_num [plan0])
      (by decide) (by decide) (by decide) (by decide) (by decide) (by decide)
      (by decide) (by decide) (by decide) (by decide) (by decide) (by decide)).2.2.2.2
      sA create0_ok⟩

lemma nullEndCount_append (ps qs : List PauseRecord) :
    nullEndCount (ps ++ qs) = nullEndCount ps + nullEndCount qs := by
  simp [nullEndCount, List.filter_append]

lemma nullEndCount_eq_zero (ps : List PauseRecord)
    (h : ∀ r ∈ ps, r.end_date ≠ none) : nullEndCount ps = 0 := by
  simp only [nullEndCount, List.length_eq_zero]
  rw [List.filter_eq_nil_iff]
  intro r hr
  simp [h r hr]

lemma nullEndCount_update_le (ps : List PauseRecord) (i : Nat) (t : Int) :
    nullEndCount (ps.map (fun r =>
      if r.id = i then { r with end_date := some t } else r)) ≤ nullEndCount ps := by
  induction ps with
  | nil => simp [nullEndCount]
  | cons r rs ih =>
    simp only [List.map_cons, nullEndCount, List.filter_cons]
    by_cases hr : r.id = i
    · rw [if_pos hr]
      have h1 : (({ r with end_date := some t } : PauseRecord).end_date.isNone) = false := rfl
      rw [h1]
      simp only [Bool.false_eq_true, if_false]
      cases hre : r.end_date.isNone
      · simp only [Bool.false_eq_true, if_false]
        exact ih
      · simp only [if_true, List.length_cons]
        exact le_trans ih (Nat.le_succ _)
    · rw [if_neg hr]
      cases hre : r.end_date.isNone
      · simp only [Bool.false_eq_true, if_false]
        exact ih
      · simp only [if_true, List.length_cons]
        exact Nat.succ_le_succ ih

/-- Invariant maintained by create and every successful lifecycle operation:
a subscription never holds more than one open-ended (null end date) pause
record. -/
lemma reachable_nullEndCount_le_one (s : SubState) (h : Reachable s) :
    nullEndCount s.pauses ≤ 1 := by
  induction h with
  | create body mp s0 hok =>
    obtain ⟨plan, ns, ds, -, -, -, -, rfl⟩ := POST_create_ok body mp s0 hok
    simp [nullEndCount]
  | step op s0 s1 hr hok ih =>
    cases op with
    | edit body mp =>
      obtain ⟨plan, ns, -, -, -, rfl⟩ := PUT_update_ok s0 body mp s1 hok
      exact ih
    | pause req t =>
      obtain ⟨-, -, -, hno, rfl⟩ := POST_pause_ok s0 req t s1 hok
      show nullEndCount (s0.pauses ++ [⟨s0.nextPauseId, req.startDate, req.endDate⟩]) ≤ 1
      rw [nullEndCount_append, nullEndCount_eq_zero s0.pauses hno]
      cases he : req.endDate <;> simp [nullEndCount, he]
    | resume t =>
      obtain ⟨-, hcase⟩ := DELETE_resume_ok s0 t s1 hok
      rcases hcase with ⟨hnone, rfl⟩ | ⟨r0, hfind, rfl⟩
      · have hp := (findMinIdRecord_eq_none _).mp hnone
        show nullEndCount (s0.pauses ++ [⟨s0.nextPauseId, t, some t⟩]) ≤ 1
        simp [hp, nullEndCount]
      · exact le_trans (nullEndCount_update_le s0.pauses r0.id t) ih
    | cancel =>
      have hs : s1 = { s0 with sub := { s0.sub with status := .cancelled } } :=
        ((Except.ok.injEq _ _).mp hok).symm
      subst hs
      exact ih

/-- State `sA` paused with end date 2 (ids start at 1). -/
def c7s1 : SubState :=
  ⟨⟨1, 0, 43, none, [0], .paused⟩, [⟨1, 1, some 2⟩], [1], 2⟩

/-- State `c7s1` resumed at day 0: record 1 closed at 0. -/
def c7s2 : SubState :=
  ⟨⟨1, 0, 43, none, [0], .active⟩, [⟨1, 1, some 0⟩], [1], 2⟩

/-- State `c7s2` paused again with end date 2. -/
def c7s3 : SubState :=
  ⟨⟨1, 0, 43, none, [0], .paused⟩, [⟨1, 1, some 0⟩, ⟨2, 1, some 2⟩], [1], 3⟩

/-- State `c7s3` resumed at day 0: the handler re-closes record 1 (minimum id) and
leaves record 2 open. -/
def c7s4 : SubState :=
  ⟨⟨1, 0, 43, none, [0], .active⟩, [⟨1, 1, some 0⟩, ⟨2, 1, some 2⟩], [1], 3⟩

/-- State `c7s4` paused a third time with end date 3: record 2 (end 2) and record 3
(end 3) are now both open at day 0 while the status is paused. -/
def c7s5 : SubState :=
  ⟨⟨1, 0, 43, none, [0], .paused⟩,
    [⟨1, 1, some 0⟩, ⟨2, 1, some 2⟩, ⟨3, 1, some 3⟩], [1], 4⟩

/-- C7 counterexample: the reachable trace create → pause(end 2) → resume →
pause(end 2) → resume → pause(end 3), all on day 0, ends paused with TWO open
pause records (ids 2 and 3, end dates 2 and 3, both strictly after day 0),
because resume always re-targets the minimum-id record. -/
theorem c7_counterexample :
    Reachable c7s5 ∧ c7s5.sub.status = .paused ∧
      2 ≤ (c7s5.pauses.filter (openAt 0)).length := by
  refine ⟨?_, rfl, by decide⟩
  exact Reachable.step (.pause ⟨1, some 3⟩ 0) c7s4 c7s5
    (Reachable.step (.resume 0) c7s3 c7s4
      (Reachable.step (.pause ⟨1, some 2⟩ 0) c7s2 c7s3
        (Reachable.step (.resume 0) c7s1 c7s2
          (Reachable.step (.pause ⟨1, some 2⟩ 0) sA c7s1
            (Reachable.create cbody0 (some plan0) sA create0_ok)
            rfl)
          rfl)
        rfl)
      rfl)
    rfl

/-- C7 (amended): for every reachable state, while the status is paused at
most one pause record is open-ended (null end date); records closed with a
future end date are not so bounded (see the counterexample). -/
theorem c7_at_most_one_open_ended (s : SubState) (h : Reachable s)
    (_hst : s.sub.status = .paused) :
    nullEndCount s.pauses ≤ 1 :=
  reachable_nullEndCount_le_one s h

/-- C7 witness: the reachable paused state `c7s1` has at most one open-ended
record. -/
theorem c7_witness : nullEndCount c7s1.pauses ≤ 1 :=
  c7_at_most_one_open_ended c7s1
    (Reachable.step (.pause ⟨1, some 2⟩ 0) sA c7s1
      (Reachable.create cbody0 (some plan0) sA create0_ok) rfl)
    rfl

end SeaC
